import Mathlib

/-!
The ACORN `build_gamma_index` driver.

A shallow embedding of `ACORN/demos/build_gamma_index.cpp`: the argument
parsing, the construction of the hybrid index, the two output paths and the
order of the effects of `main`.

* `std::string` is a list of characters (`Str`).
* `int` is `Int` wrapped to 32 bits where a value is produced (`atoi`),
  `size_t` is `Nat` below `2^64`.
* The index library (`faiss::IndexACORNFlat`, `write_index`) and the loader
  (`fvecs_read`) are not part of the driver; `main` takes them as a `Lib`, and
  `specLib` is the library as the specification describes it.
* A run is the list of its effects in program order, the way it ended, the
  file system it left and the index object.  Wall-clock readings (`elapsed`)
  and the bytes printed are left out.
* Memory is unbounded, so `std::bad_alloc` does not occur; the length check
  of `std::vector`, which depends on `N` alone, is modelled (`mkMeta`).
-/

namespace ACORN

/-- A `std::string` / C string: its characters in order. -/
abbrev Str := List Char

/-! ## libc and libstdc++ helpers used by the driver -/

/-- The `isspace` test in the "C" locale. -/
def isspace (c : Char) : Bool :=
  c = ' ' || c = '\t' || c = '\n' || c = '\x0b' || c = '\x0c' || c = '\r'

/-- The `isdigit` test: one of `'0'..'9'`. -/
def isdigit (c : Char) : Bool := c.isDigit

/-- Value of a decimal digit character. -/
def digitVal (c : Char) : Nat := c.toNat - 48

/-- Accumulate decimal digits, most significant first, onto `acc`. -/
def readDigits (acc : Nat) (s : Str) : Nat :=
  s.foldl (fun a c => a * 10 + digitVal c) acc

/-- Value of the longest run of decimal digits at the start of `s`
(`0` when there is none). -/
def magnitude (s : Str) : Nat := readDigits 0 (s.takeWhile isdigit)

/-- Split an optional sign off the front: `(negative, rest)`. -/
def splitSign : Str → Bool × Str
  | '-' :: r => (true, r)
  | '+' :: r => (false, r)
  | s => (false, s)

/-- Largest `unsigned long` (64 bits). -/
def ULONG_MAX : Nat := 2 ^ 64 - 1
/-- Largest `long` (64 bits). -/
def LONG_MAX : Int := 2 ^ 63 - 1
/-- Smallest `long` (64 bits). -/
def LONG_MIN : Int := -(2 ^ 63)

/-- The call `strtoul(nptr, NULL, 10)` on a 64-bit `unsigned long`: leading white space
is skipped, an optional sign is read, then the longest run of digits.  No
digits gives `0`; a magnitude above `ULONG_MAX` gives `ULONG_MAX`; a leading
`-` negates in unsigned arithmetic. -/
def strtoul (nptr : Str) : Nat :=
  let sb := splitSign (nptr.dropWhile isspace)
  let v := magnitude sb.2
  if ULONG_MAX < v then ULONG_MAX
  else if sb.1 then (2 ^ 64 - v) % 2 ^ 64
  else v

/-- The call `strtol(nptr, NULL, 10)` on a 64-bit `long`, saturating at `LONG_MIN` and
`LONG_MAX`. -/
def strtol (nptr : Str) : Int :=
  let sb := splitSign (nptr.dropWhile isspace)
  let v : Int := (magnitude sb.2 : Nat)
  if sb.1 then (if -v < LONG_MIN then LONG_MIN else -v)
  else (if LONG_MAX < v then LONG_MAX else v)

/-- Conversion of a `long` to a 32-bit two's-complement `int`. -/
def toInt32 (x : Int) : Int := (x + 2 ^ 31) % 2 ^ 32 - 2 ^ 31

/-- The call `atoi(nptr)`, which is `(int) strtol(nptr, NULL, 10)`. -/
def atoi (nptr : Str) : Int := toInt32 (strtol nptr)

/-- The inserter `operator<<(std::ostream&, int)` with the default flags: the signed
decimal rendering, a `-` for a negative value and no sign otherwise. -/
def dec (i : Int) : Str :=
  if i < 0 then '-' :: Nat.toDigits 10 i.natAbs else Nat.toDigits 10 i.natAbs

/-- The constant `std::string::npos`. -/
def npos : Nat := 2 ^ 64 - 1

/-- Index of the last occurrence of `c` in `s`, if any. -/
def lastIndex (c : Char) : Str → Option Nat
  | [] => none
  | x :: xs =>
    match lastIndex c xs with
    | some i => some (i + 1)
    | none => if x = c then some 0 else none

/-- The call `s.find_last_of(c)`: position of the last `c`, or `npos`. -/
def find_last_of (s : Str) (c : Char) : Nat := (lastIndex c s).getD npos

/-- The call `s.substr(pos, n)` for `pos ≤ s.size()`: at most `n` characters from
position `pos`. -/
def substr (s : Str) (pos n : Nat) : Str := (s.drop pos).take n

/-! ## The two output paths (lines 62-65 and 71-75) -/

/-- Path of the index artifact, lines 62-65. -/
def index_path (output_path dataset : Str) (M M_beta gamma : Int) : Str :=
  output_path ++ "/".toList ++ dataset ++ "/hybrid_M=".toList ++ dec M
    ++ "_Mb=".toList ++ dec M_beta ++ "_gamma=".toList ++ dec gamma ++ ".json".toList

/-- Path of the construction-time file, lines 71-75. -/
def time_file_path (dataset : Str) (M M_beta gamma : Int) : Str :=
  "../data/construction_times/".toList ++ dataset ++ "/M=".toList ++ dec M
    ++ "_Mb=".toList ++ dec M_beta ++ "_gamma=".toList ++ dec gamma ++ ".time".toList

/-- Directory handed to `mkdir -p`, line 78. -/
def time_dir_of (time_file : Str) : Str :=
  substr time_file 0 (find_last_of time_file '/')

/-! ## Data model of the driver -/

/-- The error kinds of the specification's taxonomy. -/
inductive Error
  | EmptyInput
  | InvalidParameters
  | DimensionMismatch
  | IOFailure
  deriving DecidableEq, Repr

/-- The hybrid index object `faiss::IndexACORNFlat` as far as the driver
touches it: the constructor arguments, `acorn.efSearch` and the number of
vectors added so far. -/
structure IndexACORNFlat where
  d : Nat
  M : Int
  gamma : Int
  labels : List Int
  M_beta : Int
  efSearch : Option Int
  ntotal : Nat
  deriving DecidableEq, Repr

/-- What a path of the file system holds. -/
inductive File
  | artifact (idx : IndexACORNFlat)
  | torn (idx : IndexACORNFlat)
  | timeRecord
  deriving DecidableEq, Repr

/-- The file system: what each path holds, if anything. -/
abbrev FS := Str → Option File

/-- Store `f` at path `p`. -/
def FS.put (fs : FS) (p : Str) (f : Option File) : FS :=
  fun q => if q = p then f else fs q

/-- The functions of the repository that the driver calls and that live
outside the driver file: the loader of `utils.cpp` and the index library. -/
structure Lib where
  /-- Loader `fvecs_read(fname, &d, &n)`: the dimension and the number of
  vectors of the file, `none` when the loader does not return. -/
  fvecs_read : Str → Option (Nat × Nat)
  /-- Constructor `IndexACORNFlat(d, M, gamma, metadata, M_beta)`. -/
  construct : Nat → Int → Int → List Int → Int → Except Error IndexACORNFlat
  /-- Member `add(n, x)`; the callee sees the count and a raw pointer. -/
  add : IndexACORNFlat → Nat → Except Error IndexACORNFlat
  /-- Serializer `write_index(&index, fname)` acting on the file system. -/
  write_index : IndexACORNFlat → Str → FS → Except Error Unit × FS

/-- The operating system as the driver meets it: whether
`std::ofstream(path)` ends up open. -/
structure OS where
  can_open : Str → Bool

/-- The observable steps of `main`, in program order. -/
inductive Effect
  /-- Line 27: the usage line on `stderr`, with `argv[0]`. -/
  | usage (prog : Option Str)
  /-- Line 40: the parameter banner. -/
  | printParams (M M_beta : Int) (N : Nat) (gamma : Int)
  /-- Line 46: the call of the loader. -/
  | fvecs_read (filename : Str)
  /-- Line 50: the call of the constructor. -/
  | construct (d : Nat) (M gamma : Int) (labels : List Int) (M_beta : Int)
  /-- Line 54: the call `add(n, xb)`. -/
  | add (n : Nat)
  /-- Line 56: the build-time message. -/
  | printBuildTime
  /-- Line 66: the call of the serializer. -/
  | write_index (path : Str)
  /-- Line 80: the call `system(cmd)`. -/
  | system (cmd : Str)
  /-- Line 82: the stream `std::ofstream time_out(path)` is opened. -/
  | open_time_file (path : Str)
  /-- Line 84: the construction time written to the open stream. -/
  | write_time (path : Str)
  /-- Line 86. -/
  | printSaved (path : Str)
  /-- Line 88. -/
  | warnTime (path : Str)
  /-- Line 92. -/
  | newline
  deriving DecidableEq, Repr

/-- How a run of `main` ends. -/
inductive Outcome
  /-- `main` returned this exit status. -/
  | returned (status : Int)
  /-- A callee failed with this error and `main`, which catches nothing,
  never returned. -/
  | aborted (e : Error)
  /-- Line 54 read past the end of the loaded buffer: the C++ program has no
  defined behaviour from here on. -/
  | undefined
  /-- Line 49 threw `std::length_error`; `main` catches nothing, so the
  program was terminated before the constructor call. -/
  | length_error
  deriving DecidableEq, Repr

/-- A finished run: its effects in order, how it ended, the file system it
left and the index object as it stood. -/
structure Run where
  trace : List Effect
  outcome : Outcome
  fs : FS
  index : Option IndexACORNFlat

/-- The parsed command line, lines 21-23. -/
structure Args where
  N : Nat
  gamma : Int
  filename : Str
  M : Int
  M_beta : Int
  output_path : Str
  dataset : Str
  deriving DecidableEq, Repr

/-- Lines 31-37: the positional binding of `argv[1..7]`. -/
def parseArgs (argv : List Str) : Args :=
  { N := strtoul (argv.getD 1 [])
    gamma := atoi (argv.getD 2 [])
    filename := argv.getD 3 []
    M := atoi (argv.getD 4 [])
    M_beta := atoi (argv.getD 5 [])
    output_path := argv.getD 6 []
    dataset := argv.getD 7 [] }

/-- The bound `std::vector<int>::max_size()` on a 64-bit target, which is
`PTRDIFF_MAX / sizeof(int)`. -/
def max_size : Nat := 2 ^ 61 - 1

/-- Line 49, `std::vector<int> meta(N)`: `N` value-initialised labels, or
`none` when `N` exceeds `max_size` and the vector constructor throws
`std::length_error`. -/
def mkMeta (N : Nat) : Option (List Int) :=
  if max_size < N then none else some (List.replicate N 0)

/-- Lines 39-93: everything `main` does once the arguments are bound.
An error of a callee is a C++ exception that `main` does not catch, so the run
stops there; so does the run whose label vector cannot be made at line 49,
after the loader and before the constructor.  At line 54 the callee reads `N * d` floats through `xb`, which
holds `nb * d`: for `nb < N` the read runs past the buffer. -/
def build (lib : Lib) (os : OS) (a : Args) (fs : FS) : Run :=
  let tr0 := [Effect.printParams a.M a.M_beta a.N a.gamma, Effect.fvecs_read a.filename]
  match lib.fvecs_read a.filename with
  | none => { trace := tr0, outcome := Outcome.aborted Error.IOFailure, fs := fs, index := none }
  | some (d2, nb) =>
    let efs : Int := 48
    let d := d2
    match mkMeta a.N with
    | none =>
      { trace := tr0, outcome := Outcome.length_error, fs := fs, index := none }
    | some meta =>
      let tr1 := tr0 ++ [Effect.construct d a.M a.gamma meta a.M_beta]
      match lib.construct d a.M a.gamma meta a.M_beta with
      | Except.error e => { trace := tr1, outcome := Outcome.aborted e, fs := fs, index := none }
      | Except.ok idx0 =>
        let hybrid_index := { idx0 with efSearch := some efs }
        let tr2 := tr1 ++ [Effect.add a.N]
        if nb < a.N then
          { trace := tr2, outcome := Outcome.undefined, fs := fs, index := some hybrid_index }
        else
          match lib.add hybrid_index a.N with
          | Except.error e =>
            { trace := tr2, outcome := Outcome.aborted e, fs := fs, index := some hybrid_index }
          | Except.ok idx1 =>
            let filepath := index_path a.output_path a.dataset a.M a.M_beta a.gamma
            let tr3 := tr2 ++ [Effect.printBuildTime, Effect.write_index filepath]
            match lib.write_index idx1 filepath fs with
            | (Except.error e, fs1) =>
              { trace := tr3, outcome := Outcome.aborted e, fs := fs1, index := some idx1 }
            | (Except.ok _, fs1) =>
              let time_file := time_file_path a.dataset a.M a.M_beta a.gamma
              let time_dir := time_dir_of time_file
              let mkdir_cmd := "mkdir -p ".toList ++ time_dir
              let tr4 := tr3 ++ [Effect.system mkdir_cmd, Effect.open_time_file time_file]
              if os.can_open time_file then
                { trace := tr4 ++ [Effect.write_time time_file, Effect.printSaved time_file,
                    Effect.newline],
                  outcome := Outcome.returned 0,
                  fs := fs1.put time_file (some File.timeRecord),
                  index := some idx1 }
              else
                { trace := tr4 ++ [Effect.warnTime time_file, Effect.newline],
                  outcome := Outcome.returned 0, fs := fs1, index := some idx1 }

/-- The driver `main(argc, argv)`, with `argc = argv.length`: lines 26-29
reject every argument count but 8, then the arguments are bound and the
index is built. -/
def main (lib : Lib) (os : OS) (argv : List Str) (fs : FS) : Run :=
  if argv.length ≠ 8 then
    { trace := [Effect.usage argv.head?], outcome := Outcome.returned 1, fs := fs, index := none }
  else
    build lib os (parseArgs argv) fs

/-! ## The index library as the specification describes it -/

/-- Modelled from the spec: the constructor of `faiss::IndexACORNFlat`
(`faiss/IndexACORN.h`, not part of the driver file).  Section 4.3:
construction fails with `InvalidParameters` if `M <= 0`, `M_beta < 0` or
`gamma < 1`, and with `EmptyInput` if `N == 0`; section 7: these are detected
at construction entry.  `N` is the number of labels handed over.  The
specification does not order the two checks; the parameters are checked
first, which agrees with "`N=0` fails with `InvalidParameters`/`EmptyInput`". -/
def specConstruct (d : Nat) (M gamma : Int) (labels : List Int) (M_beta : Int) :
    Except Error IndexACORNFlat :=
  if M ≤ 0 ∨ M_beta < 0 ∨ gamma < 1 then Except.error Error.InvalidParameters
  else if labels.length = 0 then Except.error Error.EmptyInput
  else Except.ok { d := d, M := M, gamma := gamma, labels := labels, M_beta := M_beta,
                   efSearch := none, ntotal := 0 }

/-- Modelled from the spec: `IndexACORNFlat::add(n, x)` (not part of the
driver file).  Section 4.1: the store requires
`len(vectors) == len(labels) == N` and fails with `DimensionMismatch`
otherwise; the vectors get the identifiers `[0, N)` in insertion order. -/
def specAdd (idx : IndexACORNFlat) (n : Nat) : Except Error IndexACORNFlat :=
  if idx.ntotal + n ≠ idx.labels.length then Except.error Error.DimensionMismatch
  else Except.ok { idx with ntotal := idx.ntotal + n }

/-- Modelled from the spec: `write_index` (`faiss/index_io.h`, not part of
the driver file).  Sections 5 and 7: the artifact is written to a temporary
path and renamed onto the final path on success; a failing write surfaces as
`IOFailure`.  `tmp` names the temporary path and `io_ok` tells whether the
write to it goes through. -/
def specWriteIndex (tmp : Str → Str) (io_ok : Str → Bool)
    (idx : IndexACORNFlat) (path : Str) (fs : FS) : Except Error Unit × FS :=
  if io_ok path then
    (Except.ok (), ((fs.put (tmp path) (some (File.artifact idx))).put (tmp path) none).put path
      (some (File.artifact idx)))
  else
    (Except.error Error.IOFailure, fs.put (tmp path) (some (File.torn idx)))

/-- Modelled from the spec: the index library as a whole, around a given
loader (`fvecs_read` of `utils.cpp`, taken as it comes). -/
def specLib (load : Str → Option (Nat × Nat)) (tmp : Str → Str) (io_ok : Str → Bool) : Lib :=
  { fvecs_read := load, construct := specConstruct, add := specAdd,
    write_index := specWriteIndex tmp io_ok }


/-- The index of the specification after a successful build: `N` vectors of
dimension `d2` under `N` default labels, with `efSearch = 48`. -/
def builtIndex (d2 : Nat) (a : Args) : IndexACORNFlat :=
  { d := d2, M := a.M, gamma := a.gamma, labels := List.replicate a.N 0, M_beta := a.M_beta,
    efSearch := some 48, ntotal := a.N }

/-! ## A sample run -/

/-- A sample loader: every file holds 10 vectors of dimension 4. -/
def sampleLoad : Str → Option (Nat × Nat) := fun _ => some (4, 10)

/-- A sample temporary-path scheme: the final path with `.tmp` appended. -/
def sampleTmp : Str → Str := fun p => p ++ ".tmp".toList

/-- The library of the specification on the sample loader, with working I/O. -/
def sampleLib : Lib := specLib sampleLoad sampleTmp (fun _ => true)

/-- The library of the specification on the sample loader, with failing I/O. -/
def failingLib : Lib := specLib sampleLoad sampleTmp (fun _ => false)

/-- An operating system on which every stream opens. -/
def sampleOS : OS := { can_open := fun _ => true }

/-- A file system that holds nothing. -/
def emptyFS : FS := fun _ => none

/-- A sample command line: `N = 5`, `gamma = 12`, `M = 32`, `M_beta = 64`. -/
def sampleArgv : List Str :=
  ["build_gamma_index".toList, "5".toList, "12".toList, "sift.fvecs".toList, "32".toList,
   "64".toList, "out".toList, "sift".toList]

/-- A command line whose base degree is not a number. -/
def badArgv : List Str :=
  ["build_gamma_index".toList, "5".toList, "12".toList, "sift.fvecs".toList, "abc".toList,
   "64".toList, "out".toList, "sift".toList]

/-- A command line whose vector count `-1` parses as `2^64 - 1` and whose
base degree is not a number. -/
def hugeArgv : List Str :=
  ["build_gamma_index".toList, "-1".toList, "12".toList, "sift.fvecs".toList, "abc".toList,
   "64".toList, "out".toList, "sift".toList]

/-- The sample command line with the vector count `-1`, which parses as
`2^64 - 1`. -/
def overlongArgv : List Str :=
  ["build_gamma_index".toList, "-1".toList, "12".toList, "sift.fvecs".toList, "32".toList,
   "64".toList, "out".toList, "sift".toList]

/-- A command line whose vector count is zero. -/
def zeroArgv : List Str :=
  ["build_gamma_index".toList, "0".toList, "12".toList, "sift.fvecs".toList, "32".toList,
   "64".toList, "out".toList, "sift".toList]


/-! ## Decimal rendering -/

theorem digitChar_isDigit (n : Nat) (h : n < 10) : (Nat.digitChar n).isDigit = true := by
  interval_cases n <;> decide

theorem digitVal_digitChar (n : Nat) (h : n < 10) : digitVal (Nat.digitChar n) = n := by
  interval_cases n <;> decide

theorem toDigitsCore_isDigit (fuel : Nat) : ∀ (n : Nat) (ds : Str),
    (∀ c ∈ ds, c.isDigit = true) → ∀ c ∈ Nat.toDigitsCore 10 fuel n ds, c.isDigit = true := by
  induction fuel with
  | zero => intro n ds h; simpa [Nat.toDigitsCore] using h
  | succ f ih =>
    intro n ds h
    have hd : ∀ c ∈ Nat.digitChar (n % 10) :: ds, c.isDigit = true := by
      intro c hc
      rcases List.mem_cons.1 hc with rfl | hc
      · exact digitChar_isDigit _ (Nat.mod_lt _ (by decide))
      · exact h c hc
    simp only [Nat.toDigitsCore]
    split
    · exact hd
    · exact ih _ _ hd

theorem toDigits_isDigit (n : Nat) : ∀ c ∈ Nat.toDigits 10 n, c.isDigit = true :=
  toDigitsCore_isDigit _ _ _ (by simp)

theorem readDigits_toDigitsCore (fuel : Nat) : ∀ (n : Nat) (ds : Str), n < fuel →
    readDigits 0 (Nat.toDigitsCore 10 fuel n ds) = readDigits n ds := by
  induction fuel with
  | zero => intro n ds h; omega
  | succ f ih =>
    intro n ds h
    simp only [Nat.toDigitsCore]
    split
    · rename_i h0
      have hv := digitVal_digitChar _ (Nat.mod_lt n (by decide : 0 < 10))
      have hn : n % 10 = n := by omega
      rw [hn] at hv
      simp only [readDigits, List.foldl_cons, hv, hn]
      simp
    · rename_i h0
      rw [ih (n / 10) _ (by omega)]
      simp only [readDigits, List.foldl_cons, digitVal_digitChar _ (Nat.mod_lt n (by decide : 0 < 10))]
      congr 1
      omega

theorem readDigits_toDigits (n : Nat) : readDigits 0 (Nat.toDigits 10 n) = n := by
  simpa [readDigits] using readDigits_toDigitsCore (n + 1) n [] (by omega)

theorem toDigits_injective {n m : Nat} (h : Nat.toDigits 10 n = Nat.toDigits 10 m) : n = m := by
  have := congrArg (readDigits 0) h
  simpa [readDigits_toDigits] using this


theorem dec_chars (i : Int) : ∀ c ∈ dec i, c = '-' ∨ c.isDigit = true := by
  intro c hc
  unfold dec at hc
  split at hc
  · rcases List.mem_cons.1 hc with rfl | hc
    · exact Or.inl rfl
    · exact Or.inr (toDigits_isDigit _ c hc)
  · exact Or.inr (toDigits_isDigit _ c hc)

theorem slash_not_mem_dec (i : Int) : '/' ∉ dec i := by
  intro h
  rcases dec_chars i _ h with h | h
  · exact absurd h (by decide)
  · exact absurd h (by decide)

theorem underscore_not_mem_dec (i : Int) : '_' ∉ dec i := by
  intro h
  rcases dec_chars i _ h with h | h
  · exact absurd h (by decide)
  · exact absurd h (by decide)

theorem dec_injective {i j : Int} (h : dec i = dec j) : i = j := by
  unfold dec at h
  split at h <;> split at h
  · have := toDigits_injective (List.cons.inj h).2
    omega
  · have hm : '-' ∈ Nat.toDigits 10 j.natAbs := by rw [← h]; exact List.mem_cons_self _ _
    exact absurd (toDigits_isDigit _ _ hm) (by decide)
  · have hm : '-' ∈ Nat.toDigits 10 i.natAbs := by rw [h]; exact List.mem_cons_self _ _
    exact absurd (toDigits_isDigit _ _ hm) (by decide)
  · have := toDigits_injective h
    omega

/-- Two strings that agree and are each cut at the first `c` agree on both sides. -/
theorem split_at_delim (c : Char) : ∀ (a a' r r' : Str), c ∉ a → c ∉ a' →
    a ++ c :: r = a' ++ c :: r' → a = a' ∧ r = r' := by
  intro a
  induction a with
  | nil =>
    intro a' r r' _ ha' h
    cases a' with
    | nil => exact ⟨rfl, (List.cons.inj h).2⟩
    | cons x xs =>
      have : c = x := (List.cons.inj h).1
      exact absurd (this ▸ List.mem_cons_self _ _) ha'
  | cons y ys ih =>
    intro a' r r' ha ha' h
    cases a' with
    | nil =>
      have : y = c := (List.cons.inj h).1
      exact absurd (this ▸ List.mem_cons_self _ _) ha
    | cons x xs =>
      obtain ⟨hxy, ht⟩ := List.cons.inj h
      have := ih xs r r' (fun hm => ha (List.mem_cons_of_mem _ hm))
        (fun hm => ha' (List.mem_cons_of_mem _ hm)) ht
      exact ⟨by rw [hxy, this.1], this.2⟩

theorem params_injective (sfx : Str) {M M_beta gamma M' M_beta' gamma' : Int}
    (h : dec M ++ "_Mb=".toList ++ dec M_beta ++ "_gamma=".toList ++ dec gamma ++ sfx
       = dec M' ++ "_Mb=".toList ++ dec M_beta' ++ "_gamma=".toList ++ dec gamma' ++ sfx) :
    M = M' ∧ M_beta = M_beta' ∧ gamma = gamma' := by
  have e1 : "_Mb=".toList = '_' :: "Mb=".toList := rfl
  have e2 : "_gamma=".toList = '_' :: "gamma=".toList := rfl
  simp only [List.append_assoc, e1, e2, List.cons_append] at h
  obtain ⟨h1, h2⟩ := split_at_delim '_' _ _ _ _ (underscore_not_mem_dec M)
    (underscore_not_mem_dec M') h
  have h3 := List.append_cancel_left h2
  obtain ⟨h4, h5⟩ := split_at_delim '_' _ _ _ _ (underscore_not_mem_dec M_beta)
    (underscore_not_mem_dec M_beta') h3
  have h6 := List.append_cancel_right (List.append_cancel_left h5)
  exact ⟨dec_injective h1, dec_injective h4, dec_injective h6⟩

theorem lastIndex_none {c : Char} : ∀ {s : Str}, c ∉ s → lastIndex c s = none := by
  intro s
  induction s with
  | nil => intro _; rfl
  | cons x xs ih =>
    intro h
    have hx : x ≠ c := fun e => h (e ▸ List.mem_cons_self _ _)
    simp [lastIndex, ih (fun hm => h (List.mem_cons_of_mem _ hm)), hx]

theorem lastIndex_append (c : Char) (b : Str) (hb : c ∉ b) :
    ∀ a : Str, lastIndex c (a ++ c :: b) = some a.length := by
  intro a
  induction a with
  | nil => simp [lastIndex, lastIndex_none hb]
  | cons x xs ih => simp [lastIndex, ih]

theorem substr_find_last_of (c : Char) (a b : Str) (hb : c ∉ b) :
    substr (a ++ c :: b) 0 (find_last_of (a ++ c :: b) c) = a := by
  simp [substr, find_last_of, lastIndex_append c b hb a]


/-- Every run of `build` is one of its eight branches; each is given in full. -/
theorem build_cases (lib : Lib) (os : OS) (a : Args) (fs : FS) :
    (lib.fvecs_read a.filename = none ∧
      build lib os a fs =
        { trace := [Effect.printParams a.M a.M_beta a.N a.gamma, Effect.fvecs_read a.filename],
          outcome := Outcome.aborted Error.IOFailure, fs := fs, index := none }) ∨
    (∃ d2 nb, lib.fvecs_read a.filename = some (d2, nb) ∧ max_size < a.N ∧
      build lib os a fs =
        { trace := [Effect.printParams a.M a.M_beta a.N a.gamma, Effect.fvecs_read a.filename],
          outcome := Outcome.length_error, fs := fs, index := none }) ∨
    (∃ d2 nb e, lib.fvecs_read a.filename = some (d2, nb) ∧ a.N ≤ max_size ∧
      lib.construct d2 a.M a.gamma (List.replicate a.N 0) a.M_beta = Except.error e ∧
      build lib os a fs =
        { trace := [Effect.printParams a.M a.M_beta a.N a.gamma, Effect.fvecs_read a.filename,
          Effect.construct d2 a.M a.gamma (List.replicate a.N 0) a.M_beta],
          outcome := Outcome.aborted e, fs := fs, index := none }) ∨
    (∃ d2 nb idx0, lib.fvecs_read a.filename = some (d2, nb) ∧ a.N ≤ max_size ∧
      lib.construct d2 a.M a.gamma (List.replicate a.N 0) a.M_beta = Except.ok idx0 ∧ nb < a.N ∧
      build lib os a fs =
        { trace := [Effect.printParams a.M a.M_beta a.N a.gamma, Effect.fvecs_read a.filename,
          Effect.construct d2 a.M a.gamma (List.replicate a.N 0) a.M_beta, Effect.add a.N],
          outcome := Outcome.undefined, fs := fs, index := some { idx0 with efSearch := some 48 } }) ∨
    (∃ d2 nb idx0 e, lib.fvecs_read a.filename = some (d2, nb) ∧ a.N ≤ max_size ∧
      lib.construct d2 a.M a.gamma (List.replicate a.N 0) a.M_beta = Except.ok idx0 ∧ a.N ≤ nb ∧
      lib.add { idx0 with efSearch := some 48 } a.N = Except.error e ∧
      build lib os a fs =
        { trace := [Effect.printParams a.M a.M_beta a.N a.gamma, Effect.fvecs_read a.filename,
          Effect.construct d2 a.M a.gamma (List.replicate a.N 0) a.M_beta, Effect.add a.N],
          outcome := Outcome.aborted e, fs := fs, index := some { idx0 with efSearch := some 48 } }) ∨
    (∃ d2 nb idx0 idx1 e fs1, lib.fvecs_read a.filename = some (d2, nb) ∧ a.N ≤ max_size ∧
      lib.construct d2 a.M a.gamma (List.replicate a.N 0) a.M_beta = Except.ok idx0 ∧ a.N ≤ nb ∧
      lib.add { idx0 with efSearch := some 48 } a.N = Except.ok idx1 ∧
      lib.write_index idx1 (index_path a.output_path a.dataset a.M a.M_beta a.gamma) fs = (Except.error e, fs1) ∧
      build lib os a fs =
        { trace := [Effect.printParams a.M a.M_beta a.N a.gamma, Effect.fvecs_read a.filename,
          Effect.construct d2 a.M a.gamma (List.replicate a.N 0) a.M_beta, Effect.add a.N,
          Effect.printBuildTime, Effect.write_index (index_path a.output_path a.dataset a.M a.M_beta a.gamma)],
          outcome := Outcome.aborted e, fs := fs1, index := some idx1 }) ∨
    (∃ d2 nb idx0 idx1 fs1, lib.fvecs_read a.filename = some (d2, nb) ∧ a.N ≤ max_size ∧
      lib.construct d2 a.M a.gamma (List.replicate a.N 0) a.M_beta = Except.ok idx0 ∧ a.N ≤ nb ∧
      lib.add { idx0 with efSearch := some 48 } a.N = Except.ok idx1 ∧
      lib.write_index idx1 (index_path a.output_path a.dataset a.M a.M_beta a.gamma) fs = (Except.ok (), fs1) ∧
      os.can_open (time_file_path a.dataset a.M a.M_beta a.gamma) = true ∧
      build lib os a fs =
        { trace := [Effect.printParams a.M a.M_beta a.N a.gamma, Effect.fvecs_read a.filename,
          Effect.construct d2 a.M a.gamma (List.replicate a.N 0) a.M_beta, Effect.add a.N,
          Effect.printBuildTime, Effect.write_index (index_path a.output_path a.dataset a.M a.M_beta a.gamma),
          Effect.system ("mkdir -p ".toList ++ time_dir_of (time_file_path a.dataset a.M a.M_beta a.gamma)),
          Effect.open_time_file (time_file_path a.dataset a.M a.M_beta a.gamma),
          Effect.write_time (time_file_path a.dataset a.M a.M_beta a.gamma), Effect.printSaved (time_file_path a.dataset a.M a.M_beta a.gamma),
          Effect.newline],
          outcome := Outcome.returned 0, fs := fs1.put (time_file_path a.dataset a.M a.M_beta a.gamma) (some File.timeRecord), index := some idx1 }) ∨
    (∃ d2 nb idx0 idx1 fs1, lib.fvecs_read a.filename = some (d2, nb) ∧ a.N ≤ max_size ∧
      lib.construct d2 a.M a.gamma (List.replicate a.N 0) a.M_beta = Except.ok idx0 ∧ a.N ≤ nb ∧
      lib.add { idx0 with efSearch := some 48 } a.N = Except.ok idx1 ∧
      lib.write_index idx1 (index_path a.output_path a.dataset a.M a.M_beta a.gamma) fs = (Except.ok (), fs1) ∧
      os.can_open (time_file_path a.dataset a.M a.M_beta a.gamma) = false ∧
      build lib os a fs =
        { trace := [Effect.printParams a.M a.M_beta a.N a.gamma, Effect.fvecs_read a.filename,
          Effect.construct d2 a.M a.gamma (List.replicate a.N 0) a.M_beta, Effect.add a.N,
          Effect.printBuildTime, Effect.write_index (index_path a.output_path a.dataset a.M a.M_beta a.gamma),
          Effect.system ("mkdir -p ".toList ++ time_dir_of (time_file_path a.dataset a.M a.M_beta a.gamma)),
          Effect.open_time_file (time_file_path a.dataset a.M a.M_beta a.gamma),
          Effect.warnTime (time_file_path a.dataset a.M a.M_beta a.gamma), Effect.newline],
          outcome := Outcome.returned 0, fs := fs1, index := some idx1 }) := by
  cases hl : lib.fvecs_read a.filename with
  | none => left; simp [build, hl]
  | some dn =>
    obtain ⟨d2, nb⟩ := dn
    right
    by_cases hN : max_size < a.N
    · left; exact ⟨d2, nb, rfl, hN, by simp [build, hl, mkMeta, hN]⟩
    right
    have hN2 : a.N ≤ max_size := Nat.le_of_not_lt hN
    cases hc : lib.construct d2 a.M a.gamma (List.replicate a.N 0) a.M_beta with
    | error e => left; exact ⟨d2, nb, e, rfl, hN2, hc, by simp [build, hl, mkMeta, hN, hc]⟩
    | ok idx0 =>
      right
      by_cases hnb : nb < a.N
      · left; exact ⟨d2, nb, idx0, rfl, hN2, hc, hnb, by simp [build, hl, mkMeta, hN, hc, hnb]⟩
      · right
        cases ha : lib.add { idx0 with efSearch := some 48 } a.N with
        | error e =>
          left
          exact ⟨d2, nb, idx0, e, rfl, hN2, hc, Nat.le_of_not_lt hnb, ha,
            by simp [build, hl, mkMeta, hN, hc, hnb, ha]⟩
        | ok idx1 =>
          right
          cases hw : lib.write_index idx1
              (index_path a.output_path a.dataset a.M a.M_beta a.gamma) fs with
          | mk res fs1 =>
            cases res with
            | error e =>
              left
              exact ⟨d2, nb, idx0, idx1, e, fs1, rfl, hN2, hc, Nat.le_of_not_lt hnb, ha, hw,
                by simp [build, hl, mkMeta, hN, hc, hnb, ha, hw]⟩
            | ok u =>
              right
              cases ho : os.can_open (time_file_path a.dataset a.M a.M_beta a.gamma) with
              | true =>
                left
                exact ⟨d2, nb, idx0, idx1, fs1, rfl, hN2, hc, Nat.le_of_not_lt hnb, ha, hw,
                  rfl, by simp [build, hl, mkMeta, hN, hc, hnb, ha, hw, ho]⟩
              | false =>
                right
                exact ⟨d2, nb, idx0, idx1, fs1, rfl, hN2, hc, Nat.le_of_not_lt hnb, ha, hw,
                  rfl, by simp [build, hl, mkMeta, hN, hc, hnb, ha, hw, ho]⟩

/-! ## Shape of the runs -/

theorem main_eq_build (lib : Lib) (os : OS) (argv : List Str) (fs : FS)
    (h : argv.length = 8) : main lib os argv fs = build lib os (parseArgs argv) fs := by
  simp [main, h]

theorem build_construct_mem (lib : Lib) (os : OS) (a : Args) (fs : FS) (d2 nb : Nat)
    (hl : lib.fvecs_read a.filename = some (d2, nb)) (hN : a.N ≤ max_size) :
    Effect.construct d2 a.M a.gamma (List.replicate a.N 0) a.M_beta ∈ (build lib os a fs).trace := by
  rcases build_cases lib os a fs with
    ⟨hn, hb⟩ | ⟨d2, nb, hl2, hbig, hb⟩ | ⟨d2, nb, e, hl2, hN2, hc2, hb⟩ |
    ⟨d2, nb, i0, hl2, hN2, hc2, hlt, hb⟩ | ⟨d2, nb, i0, e, hl2, hN2, hc2, hle, hadd, hb⟩ |
    ⟨d2, nb, i0, i1, e, f1, hl2, hN2, hc2, hle, hadd, hw, hb⟩ |
    ⟨d2, nb, i0, i1, f1, hl2, hN2, hc2, hle, hadd, hw, ho, hb⟩ |
    ⟨d2, nb, i0, i1, f1, hl2, hN2, hc2, hle, hadd, hw, ho, hb⟩ <;>
  · first
      | exact absurd hbig (Nat.not_lt.2 hN)
      | (rw [hb]; simp_all)

theorem build_construct_args (lib : Lib) (os : OS) (a : Args) (fs : FS)
    (d : Nat) (M gamma M_beta : Int) (labels : List Int)
    (h : Effect.construct d M gamma labels M_beta ∈ (build lib os a fs).trace) :
    (∃ nb, lib.fvecs_read a.filename = some (d, nb)) ∧ a.N ≤ max_size ∧ M = a.M ∧
      gamma = a.gamma ∧ labels = List.replicate a.N 0 ∧ M_beta = a.M_beta := by
  rcases build_cases lib os a fs with
    ⟨hn, hb⟩ | ⟨d2, nb, hl2, hbig, hb⟩ | ⟨d2, nb, e, hl2, hN2, hc2, hb⟩ |
    ⟨d2, nb, i0, hl2, hN2, hc2, hlt, hb⟩ | ⟨d2, nb, i0, e, hl2, hN2, hc2, hle, hadd, hb⟩ |
    ⟨d2, nb, i0, i1, e, f1, hl2, hN2, hc2, hle, hadd, hw, hb⟩ |
    ⟨d2, nb, i0, i1, f1, hl2, hN2, hc2, hle, hadd, hw, ho, hb⟩ |
    ⟨d2, nb, i0, i1, f1, hl2, hN2, hc2, hle, hadd, hw, ho, hb⟩ <;>
  · rw [hb] at h
    simp at h
    try (obtain ⟨rfl, rfl, rfl, rfl, rfl⟩ := h; exact ⟨⟨nb, hl2⟩, hN2, rfl, rfl, rfl, rfl⟩)

theorem build_add_mem (lib : Lib) (os : OS) (a : Args) (fs : FS) (d2 nb : Nat)
    (idx0 : IndexACORNFlat) (hl : lib.fvecs_read a.filename = some (d2, nb))
    (hN : a.N ≤ max_size)
    (hc : lib.construct d2 a.M a.gamma (List.replicate a.N 0) a.M_beta = Except.ok idx0) :
    Effect.add a.N ∈ (build lib os a fs).trace := by
  rcases build_cases lib os a fs with
    ⟨hn, hb⟩ | ⟨d2, nb, hl2, hbig, hb⟩ | ⟨d2, nb, e, hl2, hN2, hc2, hb⟩ |
    ⟨d2, nb, i0, hl2, hN2, hc2, hlt, hb⟩ | ⟨d2, nb, i0, e, hl2, hN2, hc2, hle, hadd, hb⟩ |
    ⟨d2, nb, i0, i1, e, f1, hl2, hN2, hc2, hle, hadd, hw, hb⟩ |
    ⟨d2, nb, i0, i1, f1, hl2, hN2, hc2, hle, hadd, hw, ho, hb⟩ |
    ⟨d2, nb, i0, i1, f1, hl2, hN2, hc2, hle, hadd, hw, ho, hb⟩ <;>
  · first
      | exact absurd hbig (Nat.not_lt.2 hN)
      | (rw [hb]; simp_all)

theorem build_add_count (lib : Lib) (os : OS) (a : Args) (fs : FS) (n : Nat)
    (h : Effect.add n ∈ (build lib os a fs).trace) : n = a.N := by
  rcases build_cases lib os a fs with
    ⟨hn, hb⟩ | ⟨d2, nb, hl2, hbig, hb⟩ | ⟨d2, nb, e, hl2, hN2, hc2, hb⟩ |
    ⟨d2, nb, i0, hl2, hN2, hc2, hlt, hb⟩ | ⟨d2, nb, i0, e, hl2, hN2, hc2, hle, hadd, hb⟩ |
    ⟨d2, nb, i0, i1, e, f1, hl2, hN2, hc2, hle, hadd, hw, hb⟩ |
    ⟨d2, nb, i0, i1, f1, hl2, hN2, hc2, hle, hadd, hw, ho, hb⟩ |
    ⟨d2, nb, i0, i1, f1, hl2, hN2, hc2, hle, hadd, hw, ho, hb⟩ <;>
  · rw [hb] at h
    simp at h
    try exact h

theorem build_write_path (lib : Lib) (os : OS) (a : Args) (fs : FS) (p : Str)
    (h : Effect.write_index p ∈ (build lib os a fs).trace) :
    p = index_path a.output_path a.dataset a.M a.M_beta a.gamma := by
  rcases build_cases lib os a fs with
    ⟨hn, hb⟩ | ⟨d2, nb, hl2, hbig, hb⟩ | ⟨d2, nb, e, hl2, hN2, hc2, hb⟩ |
    ⟨d2, nb, i0, hl2, hN2, hc2, hlt, hb⟩ | ⟨d2, nb, i0, e, hl2, hN2, hc2, hle, hadd, hb⟩ |
    ⟨d2, nb, i0, i1, e, f1, hl2, hN2, hc2, hle, hadd, hw, hb⟩ |
    ⟨d2, nb, i0, i1, f1, hl2, hN2, hc2, hle, hadd, hw, ho, hb⟩ |
    ⟨d2, nb, i0, i1, f1, hl2, hN2, hc2, hle, hadd, hw, ho, hb⟩ <;>
  · rw [hb] at h
    simp at h
    try exact h

theorem build_system_cmd (lib : Lib) (os : OS) (a : Args) (fs : FS) (cmd : Str)
    (h : Effect.system cmd ∈ (build lib os a fs).trace) :
    cmd = "mkdir -p ".toList ++ time_dir_of (time_file_path a.dataset a.M a.M_beta a.gamma) := by
  rcases build_cases lib os a fs with
    ⟨hn, hb⟩ | ⟨d2, nb, hl2, hbig, hb⟩ | ⟨d2, nb, e, hl2, hN2, hc2, hb⟩ |
    ⟨d2, nb, i0, hl2, hN2, hc2, hlt, hb⟩ | ⟨d2, nb, i0, e, hl2, hN2, hc2, hle, hadd, hb⟩ |
    ⟨d2, nb, i0, i1, e, f1, hl2, hN2, hc2, hle, hadd, hw, hb⟩ |
    ⟨d2, nb, i0, i1, f1, hl2, hN2, hc2, hle, hadd, hw, ho, hb⟩ |
    ⟨d2, nb, i0, i1, f1, hl2, hN2, hc2, hle, hadd, hw, ho, hb⟩ <;>
  · rw [hb] at h
    simp at h
    try exact h

theorem build_open_path (lib : Lib) (os : OS) (a : Args) (fs : FS) (p : Str)
    (h : Effect.open_time_file p ∈ (build lib os a fs).trace) :
    p = time_file_path a.dataset a.M a.M_beta a.gamma := by
  rcases build_cases lib os a fs with
    ⟨hn, hb⟩ | ⟨d2, nb, hl2, hbig, hb⟩ | ⟨d2, nb, e, hl2, hN2, hc2, hb⟩ |
    ⟨d2, nb, i0, hl2, hN2, hc2, hlt, hb⟩ | ⟨d2, nb, i0, e, hl2, hN2, hc2, hle, hadd, hb⟩ |
    ⟨d2, nb, i0, i1, e, f1, hl2, hN2, hc2, hle, hadd, hw, hb⟩ |
    ⟨d2, nb, i0, i1, f1, hl2, hN2, hc2, hle, hadd, hw, ho, hb⟩ |
    ⟨d2, nb, i0, i1, f1, hl2, hN2, hc2, hle, hadd, hw, ho, hb⟩ <;>
  · rw [hb] at h
    simp at h
    try exact h

/-- A count above `max_size` ends the run at line 49, after the loader. -/
theorem build_length_error (lib : Lib) (os : OS) (a : Args) (fs : FS) (d2 nb : Nat)
    (hl : lib.fvecs_read a.filename = some (d2, nb)) (hN : max_size < a.N) :
    (build lib os a fs).outcome = Outcome.length_error ∧
    (build lib os a fs).trace
      = [Effect.printParams a.M a.M_beta a.N a.gamma, Effect.fvecs_read a.filename] := by
  simp [build, hl, mkMeta, hN]

/-- In every run the serializer call comes before the time file is opened:
the trace splits around the two events, and the time file is not opened
earlier. -/
theorem build_write_before_open (lib : Lib) (os : OS) (a : Args) (fs : FS) (p : Str)
    (h : Effect.open_time_file p ∈ (build lib os a fs).trace) :
    ∃ l1 l2 l3, (build lib os a fs).trace =
        l1 ++ Effect.write_index (index_path a.output_path a.dataset a.M a.M_beta a.gamma)
          :: l2 ++ Effect.open_time_file p :: l3 ∧
      Effect.open_time_file p ∉ l1 ∧ Effect.open_time_file p ∉ l2 := by
  have hp := build_open_path lib os a fs p h
  subst hp
  rcases build_cases lib os a fs with
    ⟨hn, hb⟩ | ⟨d2, nb, hl2, hbig, hb⟩ | ⟨d2, nb, e, hl2, hN2, hc2, hb⟩ |
    ⟨d2, nb, i0, hl2, hN2, hc2, hlt, hb⟩ | ⟨d2, nb, i0, e, hl2, hN2, hc2, hle, hadd, hb⟩ |
    ⟨d2, nb, i0, i1, e, f1, hl2, hN2, hc2, hle, hadd, hw, hb⟩ |
    ⟨d2, nb, i0, i1, f1, hl2, hN2, hc2, hle, hadd, hw, ho, hb⟩ |
    ⟨d2, nb, i0, i1, f1, hl2, hN2, hc2, hle, hadd, hw, ho, hb⟩
  · rw [hb] at h; simp at h
  · rw [hb] at h; simp at h
  · rw [hb] at h; simp at h
  · rw [hb] at h; simp at h
  · rw [hb] at h; simp at h
  · rw [hb] at h; simp at h
  · rw [hb]
    exact ⟨[Effect.printParams a.M a.M_beta a.N a.gamma, Effect.fvecs_read a.filename,
        Effect.construct d2 a.M a.gamma (List.replicate a.N 0) a.M_beta, Effect.add a.N,
        Effect.printBuildTime],
      [Effect.system ("mkdir -p ".toList ++
        time_dir_of (time_file_path a.dataset a.M a.M_beta a.gamma))],
      _, rfl, by simp, by simp⟩
  · rw [hb]
    exact ⟨[Effect.printParams a.M a.M_beta a.N a.gamma, Effect.fvecs_read a.filename,
        Effect.construct d2 a.M a.gamma (List.replicate a.N 0) a.M_beta, Effect.add a.N,
        Effect.printBuildTime],
      [Effect.system ("mkdir -p ".toList ++
        time_dir_of (time_file_path a.dataset a.M a.M_beta a.gamma))],
      _, rfl, by simp, by simp⟩

/-! ## The argument-count guard (lines 26-29) -/

/-- C5: for every argument vector whose length is not 8, `main` returns exit
status 1 and its only effect is the usage line: no loader call, no
constructor call, no shell command, no index artifact, no time file; the file
system is left as it was. -/
theorem C5_wrong_argc_usage_only (lib : Lib) (os : OS) (argv : List Str) (fs : FS)
    (h : argv.length ≠ 8) :
    (main lib os argv fs).outcome = Outcome.returned 1 ∧
    (main lib os argv fs).trace = [Effect.usage argv.head?] ∧
    (main lib os argv fs).fs = fs ∧
    (main lib os argv fs).index = none := by
  simp [main, h]

/-- Witness for C5: a command line of two words. -/
theorem C5_wrong_argc_usage_only_witness :
    (main sampleLib sampleOS ["build_gamma_index".toList, "5".toList] emptyFS).outcome
      = Outcome.returned 1 ∧
    (main sampleLib sampleOS ["build_gamma_index".toList, "5".toList] emptyFS).trace
      = [Effect.usage (some "build_gamma_index".toList)] :=
  have h := C5_wrong_argc_usage_only sampleLib sampleOS
    ["build_gamma_index".toList, "5".toList] emptyFS (by decide)
  ⟨h.1, h.2.1⟩

/-! ## The label sequence (line 49) -/

/-- C4: whatever the arguments, a label sequence handed to the constructor
has length exactly `N`, every entry of it is the default label `0`, so each
identifier below `N` has exactly one label, and the count handed to `add` is
that same length. -/
theorem C4_labels_aligned (lib : Lib) (os : OS) (argv : List Str) (fs : FS)
    (d : Nat) (M gamma M_beta : Int) (labels : List Int)
    (h : Effect.construct d M gamma labels M_beta ∈ (main lib os argv fs).trace) :
    labels.length = strtoul (argv.getD 1 []) ∧
    (∀ i, i < strtoul (argv.getD 1 []) → labels[i]? = some 0) ∧
    (∀ x ∈ labels, x = 0) ∧
    (∀ n, Effect.add n ∈ (main lib os argv fs).trace → n = labels.length) := by
  by_cases h8 : argv.length = 8
  swap
  · simp [main, h8] at h
  rw [main_eq_build lib os argv fs h8] at h ⊢
  have hN : strtoul (argv.getD 1 []) = (parseArgs argv).N := rfl
  rw [hN]
  obtain ⟨_, _, _, _, key, _⟩ := build_construct_args lib os _ fs d M gamma M_beta labels h
  subst key
  refine ⟨by simp, ?_, ?_, ?_⟩
  · intro i hi
    simp [List.getElem?_replicate, hi]
  · intro x hx
    exact (List.mem_replicate.1 hx).2
  · intro n hn
    rw [build_add_count lib os _ fs n hn]
    simp

/-- Witness for C4: the sample run hands five zero labels to the constructor. -/
theorem C4_labels_aligned_witness :
    Effect.construct 4 32 12 (List.replicate 5 0) 64
      ∈ (main sampleLib sampleOS sampleArgv emptyFS).trace ∧
    (List.replicate 5 (0 : Int)).length = strtoul (sampleArgv.getD 1 []) ∧
    (∀ x ∈ List.replicate 5 (0 : Int), x = 0) :=
  have h := C4_labels_aligned sampleLib sampleOS sampleArgv emptyFS 4 32 12 64
    (List.replicate 5 0) (by decide)
  ⟨by decide, h.1, h.2.2.1⟩

/-! ## Positional binding (lines 31-37, 45-54) -/

/-- C6 (as stated, refuted): with eight arguments and the vector count `-1`,
which `strtoul` reads as `2^64 - 1`, no index is constructed and nothing is
added: line 49 throws `std::length_error` and the run ends after the loader
call. -/
theorem C6_counterexample :
    overlongArgv.length = 8 ∧
    strtoul (overlongArgv.getD 1 []) = 2 ^ 64 - 1 ∧
    (main sampleLib sampleOS overlongArgv emptyFS).trace
      = [Effect.printParams 32 64 (2 ^ 64 - 1) 12, Effect.fvecs_read "sift.fvecs".toList] ∧
    Effect.add (2 ^ 64 - 1) ∉ (main sampleLib sampleOS overlongArgv emptyFS).trace ∧
    (main sampleLib sampleOS overlongArgv emptyFS).index = none ∧
    (main sampleLib sampleOS overlongArgv emptyFS).outcome = Outcome.length_error := by
  decide

/-- C6 (amended): with eight arguments, `argv[1..7]` are bound as the usage line states
(N, gamma, filename, M, M_beta, output_path, dataset).  Every constructor call
of the run carries the dimension read from the file (not the initial 128),
base degree `M`, branching factor `gamma` and robust degree `M_beta` in that
order, with `N` labels; it is issued once the loader has returned and line 49
has made the label vector, which it does for `N <= max_size`.  Every `add`
call carries the count `N` and is issued once the constructor has returned an
index.  For `N > max_size` the run ends at line 49 with `std::length_error`,
before any constructor call. -/
theorem C6_positional_binding (lib : Lib) (os : OS) (fs : FS)
    (a0 a1 a2 a3 a4 a5 a6 a7 : Str) :
    parseArgs [a0, a1, a2, a3, a4, a5, a6, a7] =
      { N := strtoul a1, gamma := atoi a2, filename := a3, M := atoi a4, M_beta := atoi a5,
        output_path := a6, dataset := a7 } ∧
    (∀ d2 nb, lib.fvecs_read a3 = some (d2, nb) →
      (strtoul a1 ≤ max_size →
        Effect.construct d2 (atoi a4) (atoi a2) (List.replicate (strtoul a1) 0) (atoi a5)
          ∈ (main lib os [a0, a1, a2, a3, a4, a5, a6, a7] fs).trace) ∧
      (∀ d M gamma labels M_beta, Effect.construct d M gamma labels M_beta
          ∈ (main lib os [a0, a1, a2, a3, a4, a5, a6, a7] fs).trace →
        d = d2 ∧ M = atoi a4 ∧ gamma = atoi a2 ∧ M_beta = atoi a5 ∧
        labels = List.replicate (strtoul a1) 0 ∧ strtoul a1 ≤ max_size) ∧
      (∀ idx0, strtoul a1 ≤ max_size →
        lib.construct d2 (atoi a4) (atoi a2) (List.replicate (strtoul a1) 0) (atoi a5)
          = Except.ok idx0 →
        Effect.add (strtoul a1) ∈ (main lib os [a0, a1, a2, a3, a4, a5, a6, a7] fs).trace) ∧
      (max_size < strtoul a1 →
        (main lib os [a0, a1, a2, a3, a4, a5, a6, a7] fs).outcome = Outcome.length_error ∧
        (main lib os [a0, a1, a2, a3, a4, a5, a6, a7] fs).trace
          = [Effect.printParams (atoi a4) (atoi a5) (strtoul a1) (atoi a2),
             Effect.fvecs_read a3])) ∧
    (∀ n, Effect.add n ∈ (main lib os [a0, a1, a2, a3, a4, a5, a6, a7] fs).trace →
      n = strtoul a1) := by
  have hp : parseArgs [a0, a1, a2, a3, a4, a5, a6, a7] =
      { N := strtoul a1, gamma := atoi a2, filename := a3, M := atoi a4, M_beta := atoi a5,
        output_path := a6, dataset := a7 } := rfl
  rw [main_eq_build lib os [a0, a1, a2, a3, a4, a5, a6, a7] fs rfl]
  refine ⟨hp, ?_, ?_⟩
  · intro d2 nb hl
    refine ⟨?_, ?_, ?_, ?_⟩
    · intro hN
      exact build_construct_mem lib os _ fs d2 nb hl hN
    · intro d M gamma labels M_beta h
      obtain ⟨⟨nb2, hl2⟩, hN, hM, hg, hlab, hMb⟩ :=
        build_construct_args lib os _ fs d M gamma M_beta labels h
      have hl3 : lib.fvecs_read a3 = some (d, nb2) := hl2
      rw [hl] at hl3
      simp only [Option.some.injEq, Prod.mk.injEq] at hl3
      exact ⟨hl3.1.symm, hM, hg, hMb, hlab, hN⟩
    · intro idx0 hN hc
      exact build_add_mem lib os _ fs d2 nb idx0 hl hN hc
    · intro hbig
      exact build_length_error lib os _ fs d2 nb hl hbig
  · intro n h
    exact build_add_count lib os _ fs n h

/-- Witness for C6 (amended): the sample run constructs with `d = 4`, `M = 32`, `gamma = 12`,
`M_beta = 64` and adds 5 vectors; with the count `-1` it ends at line 49. -/
theorem C6_positional_binding_witness :
    Effect.construct 4 32 12 (List.replicate 5 0) 64
      ∈ (main sampleLib sampleOS sampleArgv emptyFS).trace ∧
    Effect.add 5 ∈ (main sampleLib sampleOS sampleArgv emptyFS).trace ∧
    (main sampleLib sampleOS hugeArgv emptyFS).outcome = Outcome.length_error :=
  have h := (C6_positional_binding sampleLib sampleOS emptyFS "build_gamma_index".toList
    "5".toList "12".toList "sift.fvecs".toList "32".toList "64".toList "out".toList
    "sift".toList).2.1 4 10 rfl
  have g := (C6_positional_binding sampleLib sampleOS emptyFS "build_gamma_index".toList
    "-1".toList "12".toList "sift.fvecs".toList "abc".toList "64".toList "out".toList
    "sift".toList).2.1 4 10 rfl
  ⟨h.1 (by decide), h.2.2.1 _ (by decide) rfl, (g.2.2.2 (by decide)).1⟩

/-! ## The output paths (lines 62-65, 71-80) -/

/-- C8: for every dataset string, also one with `/` in it, and all integers
`M`, `M_beta`, `gamma`, the construction-time path is
`"../data/construction_times/" ++ dataset ++ "/M=" ++ dec M ++ "_Mb=" ++
dec M_beta ++ "_gamma=" ++ dec gamma ++ ".time"`, its prefix before the last
`/` is `"../data/construction_times/" ++ dataset`, and in every run the shell
command is `mkdir -p` on that directory for the dataset `argv[7]`. -/
theorem C8_time_file_and_directory (dataset : Str) (M M_beta gamma : Int) :
    time_file_path dataset M M_beta gamma =
      "../data/construction_times/".toList ++ dataset ++ "/M=".toList ++ dec M ++
        "_Mb=".toList ++ dec M_beta ++ "_gamma=".toList ++ dec gamma ++ ".time".toList ∧
    time_dir_of (time_file_path dataset M M_beta gamma) =
      "../data/construction_times/".toList ++ dataset ∧
    (∀ (lib : Lib) (os : OS) (argv : List Str) (fs : FS) (cmd : Str),
      Effect.system cmd ∈ (main lib os argv fs).trace →
      cmd = "mkdir -p ".toList ++ ("../data/construction_times/".toList ++ argv.getD 7 [])) := by
  have hdir : ∀ (ds : Str) (m mb g : Int), time_dir_of (time_file_path ds m mb g) =
      "../data/construction_times/".toList ++ ds := by
    intro ds m mb g
    have e : time_file_path ds m mb g =
        ("../data/construction_times/".toList ++ ds) ++ '/' ::
          ("M=".toList ++ dec m ++ "_Mb=".toList ++ dec mb ++ "_gamma=".toList ++ dec g
            ++ ".time".toList) := by
      simp [time_file_path]
    rw [e]
    apply substr_find_last_of
    have h1 : '/' ∉ "M=".toList := by decide
    have h2 : '/' ∉ "_Mb=".toList := by decide
    have h3 : '/' ∉ "_gamma=".toList := by decide
    have h4 : '/' ∉ ".time".toList := by decide
    simp [h1, h2, h3, h4, slash_not_mem_dec]
  refine ⟨rfl, hdir _ _ _ _, ?_⟩
  intro lib os argv fs cmd h
  by_cases h8 : argv.length = 8
  · rw [main_eq_build lib os argv fs h8] at h
    rw [build_system_cmd lib os _ fs cmd h, hdir]
    rfl
  · simp [main, h8] at h

/-- Witness for C8: the shell command of the sample run. -/
theorem C8_time_file_and_directory_witness :
    Effect.system "mkdir -p ../data/construction_times/sift".toList
      ∈ (main sampleLib sampleOS sampleArgv emptyFS).trace ∧
    "mkdir -p ../data/construction_times/sift".toList
      = "mkdir -p ".toList ++ ("../data/construction_times/".toList ++ sampleArgv.getD 7 []) :=
  ⟨by decide, (C8_time_file_and_directory [] 0 0 0).2.2 sampleLib sampleOS sampleArgv emptyFS
    "mkdir -p ../data/construction_times/sift".toList (by decide)⟩

/-- C9: for every output path, dataset and integers `M`, `M_beta`, `gamma`,
the index artifact path is `output_path ++ "/" ++ dataset ++ "/hybrid_M=" ++
dec M ++ "_Mb=" ++ dec M_beta ++ "_gamma=" ++ dec gamma ++ ".json"`; every
serializer call of a run is on that path for the bound arguments, and when the
time file is opened the trace has the serializer call before it. -/
theorem C9_index_path_and_order (output_path dataset : Str) (M M_beta gamma : Int) :
    index_path output_path dataset M M_beta gamma =
      output_path ++ "/".toList ++ dataset ++ "/hybrid_M=".toList ++ dec M ++
        "_Mb=".toList ++ dec M_beta ++ "_gamma=".toList ++ dec gamma ++ ".json".toList ∧
    (∀ (lib : Lib) (os : OS) (a : Args) (fs : FS) (p : Str),
      Effect.write_index p ∈ (build lib os a fs).trace →
      p = index_path a.output_path a.dataset a.M a.M_beta a.gamma) ∧
    (∀ (lib : Lib) (os : OS) (argv : List Str) (fs : FS) (p : Str),
      Effect.open_time_file p ∈ (main lib os argv fs).trace →
      ∃ l1 l2 l3, (main lib os argv fs).trace =
          l1 ++ Effect.write_index (index_path (argv.getD 6 []) (argv.getD 7 [])
            (atoi (argv.getD 4 [])) (atoi (argv.getD 5 [])) (atoi (argv.getD 2 [])))
            :: l2 ++ Effect.open_time_file p :: l3 ∧
        Effect.open_time_file p ∉ l1 ∧ Effect.open_time_file p ∉ l2) := by
  refine ⟨rfl, ?_, ?_⟩
  · intro lib os a fs p h
    exact build_write_path lib os a fs p h
  · intro lib os argv fs p h
    by_cases h8 : argv.length = 8
    · rw [main_eq_build lib os argv fs h8] at h ⊢
      exact build_write_before_open lib os _ fs p h
    · simp [main, h8] at h

/-- Witness for C9: the sample run opens the time file after the serializer call. -/
theorem C9_index_path_and_order_witness :
    Effect.open_time_file "../data/construction_times/sift/M=32_Mb=64_gamma=12.time".toList
      ∈ (main sampleLib sampleOS sampleArgv emptyFS).trace ∧
    ∃ l1 l2 l3, (main sampleLib sampleOS sampleArgv emptyFS).trace =
      l1 ++ Effect.write_index (index_path (sampleArgv.getD 6 []) (sampleArgv.getD 7 [])
            (atoi (sampleArgv.getD 4 [])) (atoi (sampleArgv.getD 5 []))
            (atoi (sampleArgv.getD 2 [])))
        :: l2 ++ Effect.open_time_file
          "../data/construction_times/sift/M=32_Mb=64_gamma=12.time".toList :: l3 ∧
      Effect.open_time_file "../data/construction_times/sift/M=32_Mb=64_gamma=12.time".toList
        ∉ l1 ∧
      Effect.open_time_file "../data/construction_times/sift/M=32_Mb=64_gamma=12.time".toList
        ∉ l2 :=
  ⟨by decide, (C9_index_path_and_order [] [] 0 0 0).2.2 sampleLib sampleOS sampleArgv emptyFS
    "../data/construction_times/sift/M=32_Mb=64_gamma=12.time".toList (by decide)⟩

/-- C10: for fixed output path and dataset the index path and the time-file
path are each injective in `(M, M_beta, gamma)`; the index path is not
injective in `(output_path, dataset)`: `("a/b", "c")` and `("a", "b/c")` give
the same path, and the time-file path does not depend on the output path. -/
theorem C10_paths_injective_in_parameters (output_path dataset : Str)
    (M M_beta gamma M' M_beta' gamma' : Int) :
    (index_path output_path dataset M M_beta gamma
        = index_path output_path dataset M' M_beta' gamma' →
      M = M' ∧ M_beta = M_beta' ∧ gamma = gamma') ∧
    (time_file_path dataset M M_beta gamma = time_file_path dataset M' M_beta' gamma' →
      M = M' ∧ M_beta = M_beta' ∧ gamma = gamma') ∧
    index_path "a/b".toList "c".toList M M_beta gamma
      = index_path "a".toList "b/c".toList M M_beta gamma ∧
    ("a/b".toList, "c".toList) ≠ ("a".toList, "b/c".toList) := by
  refine ⟨?_, ?_, ?_, by decide⟩
  · intro h
    simp only [index_path, List.append_assoc, List.append_cancel_left_eq] at h
    apply params_injective ".json".toList
    simpa only [List.append_assoc] using h
  · intro h
    simp only [time_file_path, List.append_assoc, List.append_cancel_left_eq] at h
    apply params_injective ".time".toList
    simpa only [List.append_assoc] using h
  · simp [index_path]

/-- Witness for C10: one parameter triple, and the two colliding path pairs. -/
theorem C10_paths_injective_in_parameters_witness :
    (index_path "out".toList "sift".toList 32 64 12
        = index_path "out".toList "sift".toList 32 64 12 →
      (32 : Int) = 32 ∧ (64 : Int) = 64 ∧ (12 : Int) = 12) ∧
    index_path "a/b".toList "c".toList 32 64 12
      = index_path "a".toList "b/c".toList 32 64 12 :=
  have h := C10_paths_injective_in_parameters "out".toList "sift".toList 32 64 12 32 64 12
  ⟨h.1, h.2.2.1⟩

/-! ## Words that are not numbers -/

/-- A word that starts with neither white space, a sign nor a digit has
magnitude 0 for `strtol`, so `atoi` gives 0; so does the empty word. -/
theorem atoi_not_numeric (c : Char) (r : Str) (hs : isspace c = false)
    (hd : isdigit c = false) (hm : c ≠ '-') (hp : c ≠ '+') :
    atoi (c :: r) = 0 ∧ atoi [] = 0 := by
  have h1 : (c :: r).dropWhile isspace = c :: r := by simp [List.dropWhile, hs]
  have h2 : splitSign (c :: r) = (false, c :: r) := by
    unfold splitSign
    split
    · rename_i heq; exact absurd (List.cons.inj heq).1 hm
    · rename_i heq; exact absurd (List.cons.inj heq).1 hp
    · rfl
  have h3 : magnitude (c :: r) = 0 := by simp [magnitude, List.takeWhile, hd, readDigits]
  refine ⟨?_, by decide⟩
  simp only [atoi, strtol, h1, h2, h3]
  decide

/-! ## Runs against the index library of the specification -/

theorem specConstruct_invalid (d : Nat) (M gamma M_beta : Int) (labels : List Int)
    (h : M ≤ 0 ∨ M_beta < 0 ∨ gamma < 1) :
    specConstruct d M gamma labels M_beta = Except.error Error.InvalidParameters := by
  simp [specConstruct, h]

theorem specConstruct_empty (d : Nat) (M gamma M_beta : Int) :
    specConstruct d M gamma (List.replicate 0 0) M_beta
      = Except.error Error.InvalidParameters ∨
    specConstruct d M gamma (List.replicate 0 0) M_beta = Except.error Error.EmptyInput := by
  by_cases h : M ≤ 0 ∨ M_beta < 0 ∨ gamma < 1
  · exact Or.inl (specConstruct_invalid d M gamma M_beta _ h)
  · exact Or.inr (by simp [specConstruct, h])

/-- A run whose constructor call fails stops there: nothing is added, nothing
is written, and the run ends with the constructor's error if the loader
returned and line 49 made the label vector. -/
theorem build_construct_fails (lib : Lib) (os : OS) (a : Args) (fs : FS)
    (hc : ∀ d2, ∃ e, lib.construct d2 a.M a.gamma (List.replicate a.N 0) a.M_beta
      = Except.error e) :
    (∀ n, Effect.add n ∉ (build lib os a fs).trace) ∧
    (∀ p, Effect.write_index p ∉ (build lib os a fs).trace) ∧
    (build lib os a fs).index = none ∧
    (build lib os a fs).fs = fs ∧
    (build lib os a fs).outcome ≠ Outcome.returned 0 ∧
    (∀ d2 nb e, lib.fvecs_read a.filename = some (d2, nb) → a.N ≤ max_size →
      lib.construct d2 a.M a.gamma (List.replicate a.N 0) a.M_beta = Except.error e →
      (build lib os a fs).outcome = Outcome.aborted e ∧
      (build lib os a fs).trace.getLast?
        = some (Effect.construct d2 a.M a.gamma (List.replicate a.N 0) a.M_beta)) := by
  rcases build_cases lib os a fs with
    ⟨hnone, hb⟩ | ⟨d2, nb, hl2, hbig, hb⟩ | ⟨d2, nb, e, hl2, hN2, hc2, hb⟩ |
    ⟨d2, nb, i0, hl2, hN2, hc2, hlt, hb⟩ | ⟨d2, nb, i0, e, hl2, hN2, hc2, hle, hadd, hb⟩ |
    ⟨d2, nb, i0, i1, e, f1, hl2, hN2, hc2, hle, hadd, hw, hb⟩ |
    ⟨d2, nb, i0, i1, f1, hl2, hN2, hc2, hle, hadd, hw, ho, hb⟩ |
    ⟨d2, nb, i0, i1, f1, hl2, hN2, hc2, hle, hadd, hw, ho, hb⟩
  · rw [hb]; simp [hnone]
  · rw [hb]
    refine ⟨by simp, by simp, rfl, rfl, by simp, ?_⟩
    intro d2' nb' e' _ hN _
    exact absurd hbig (Nat.not_lt.2 hN)
  · rw [hb]
    refine ⟨by simp, by simp, rfl, rfl, by simp, ?_⟩
    intro d2' nb' e' hl3 _ hc3
    rw [hl2] at hl3
    simp only [Option.some.injEq, Prod.mk.injEq] at hl3
    obtain ⟨rfl, rfl⟩ := hl3
    rw [hc2] at hc3
    simp only [Except.error.injEq] at hc3
    subst hc3
    simp
  all_goals
    obtain ⟨e, he⟩ := hc d2
    rw [he] at hc2
    cases hc2

/-- C1 (as stated, refuted): with the vector count `-1`, which `strtoul`
reads as `2^64 - 1`, and the base degree `abc`, which `atoi` reads as 0, the
run does not fail with `InvalidParameters`: line 49 throws
`std::length_error` and the program ends before any constructor call. -/
theorem C1_counterexample :
    strtoul (hugeArgv.getD 1 []) = 2 ^ 64 - 1 ∧
    atoi (hugeArgv.getD 4 []) = 0 ∧
    (main sampleLib sampleOS hugeArgv emptyFS).outcome ≠ Outcome.aborted Error.InvalidParameters ∧
    (main sampleLib sampleOS hugeArgv emptyFS).outcome = Outcome.length_error ∧
    (main sampleLib sampleOS hugeArgv emptyFS).trace
      = [Effect.printParams 0 64 (2 ^ 64 - 1) 12, Effect.fvecs_read "sift.fvecs".toList] := by
  decide

/-- C1 (amended): against the index library of the specification, every run
with eight arguments whose parsed `M` is `<= 0`, or `M_beta` is `< 0`, or
`gamma` is `< 1` adds no vectors, calls no serializer, leaves the file system
as it was, has no index and does not return 0.  Once the loader has returned:
for `N <= max_size` the run ends at the constructor call, aborted with
`InvalidParameters`; for `N > max_size` it ends at line 49 with
`std::length_error`, before the constructor call. -/
theorem C1_invalid_parameters_abort (load : Str → Option (Nat × Nat)) (tmp : Str → Str)
    (io_ok : Str → Bool) (os : OS) (argv : List Str) (fs : FS)
    (h8 : argv.length = 8)
    (hbad : atoi (argv.getD 4 []) ≤ 0 ∨ atoi (argv.getD 5 []) < 0 ∨ atoi (argv.getD 2 []) < 1) :
    (∀ n, Effect.add n ∉ (main (specLib load tmp io_ok) os argv fs).trace) ∧
    (∀ p, Effect.write_index p ∉ (main (specLib load tmp io_ok) os argv fs).trace) ∧
    (main (specLib load tmp io_ok) os argv fs).index = none ∧
    (main (specLib load tmp io_ok) os argv fs).fs = fs ∧
    (main (specLib load tmp io_ok) os argv fs).outcome ≠ Outcome.returned 0 ∧
    (∀ d2 nb, load (argv.getD 3 []) = some (d2, nb) →
      (strtoul (argv.getD 1 []) ≤ max_size →
        (main (specLib load tmp io_ok) os argv fs).outcome
          = Outcome.aborted Error.InvalidParameters ∧
        (main (specLib load tmp io_ok) os argv fs).trace.getLast?
          = some (Effect.construct d2 (atoi (argv.getD 4 [])) (atoi (argv.getD 2 []))
              (List.replicate (strtoul (argv.getD 1 [])) 0) (atoi (argv.getD 5 [])))) ∧
      (max_size < strtoul (argv.getD 1 []) →
        (main (specLib load tmp io_ok) os argv fs).outcome = Outcome.length_error ∧
        (main (specLib load tmp io_ok) os argv fs).trace
          = [Effect.printParams (atoi (argv.getD 4 [])) (atoi (argv.getD 5 []))
               (strtoul (argv.getD 1 [])) (atoi (argv.getD 2 [])),
             Effect.fvecs_read (argv.getD 3 [])])) := by
  rw [main_eq_build _ os argv fs h8]
  have hinv : ∀ d2, specConstruct d2 (parseArgs argv).M (parseArgs argv).gamma
      (List.replicate (parseArgs argv).N 0) (parseArgs argv).M_beta
      = Except.error Error.InvalidParameters :=
    fun d2 => specConstruct_invalid d2 _ _ _ _ hbad
  obtain ⟨h1, h2, h3, h4, h5, h6⟩ := build_construct_fails (specLib load tmp io_ok) os
    (parseArgs argv) fs (fun d2 => ⟨_, hinv d2⟩)
  refine ⟨h1, h2, h3, h4, h5, ?_⟩
  intro d2 nb hl
  refine ⟨?_, ?_⟩
  · intro hN
    exact h6 d2 nb _ hl hN (hinv d2)
  · intro hbig
    exact build_length_error (specLib load tmp io_ok) os (parseArgs argv) fs d2 nb hl hbig

/-- Witness for C1 (amended): the base degree `abc` parses as 0 and the run
aborts at the constructor. -/
theorem C1_invalid_parameters_abort_witness :
    atoi "abc".toList = 0 ∧
    (main sampleLib sampleOS badArgv emptyFS).outcome
      = Outcome.aborted Error.InvalidParameters ∧
    (∀ n, Effect.add n ∉ (main sampleLib sampleOS badArgv emptyFS).trace) ∧
    (∀ p, Effect.write_index p ∉ (main sampleLib sampleOS badArgv emptyFS).trace) :=
  have h := C1_invalid_parameters_abort sampleLoad sampleTmp (fun _ => true) sampleOS badArgv
    emptyFS (by decide) (by decide)
  ⟨by decide, ((h.2.2.2.2.2 4 10 rfl).1 (by decide)).1, h.1, h.2.1⟩

/-- C2: against the index library of the specification, every run with eight
arguments whose parsed vector count `N` is 0 does not return exit status 0,
adds nothing and calls no serializer, so no artifact of an empty index is
written; once the loader has returned, the run is aborted with `EmptyInput`
or `InvalidParameters`. -/
theorem C2_empty_input_abort (load : Str → Option (Nat × Nat)) (tmp : Str → Str)
    (io_ok : Str → Bool) (os : OS) (argv : List Str) (fs : FS)
    (h8 : argv.length = 8) (hN : strtoul (argv.getD 1 []) = 0) :
    (main (specLib load tmp io_ok) os argv fs).outcome ≠ Outcome.returned 0 ∧
    (∀ n, Effect.add n ∉ (main (specLib load tmp io_ok) os argv fs).trace) ∧
    (∀ p, Effect.write_index p ∉ (main (specLib load tmp io_ok) os argv fs).trace) ∧
    (main (specLib load tmp io_ok) os argv fs).fs = fs ∧
    (∀ d2 nb, load (argv.getD 3 []) = some (d2, nb) →
      (main (specLib load tmp io_ok) os argv fs).outcome = Outcome.aborted Error.EmptyInput ∨
      (main (specLib load tmp io_ok) os argv fs).outcome
        = Outcome.aborted Error.InvalidParameters) := by
  rw [main_eq_build _ os argv fs h8]
  have hN2 : (parseArgs argv).N = 0 := hN
  have hmax : (parseArgs argv).N ≤ max_size := by rw [hN2]; exact Nat.zero_le _
  have hemp : ∀ d2, specConstruct d2 (parseArgs argv).M (parseArgs argv).gamma
        (List.replicate (parseArgs argv).N 0) (parseArgs argv).M_beta
        = Except.error Error.InvalidParameters ∨
      specConstruct d2 (parseArgs argv).M (parseArgs argv).gamma
        (List.replicate (parseArgs argv).N 0) (parseArgs argv).M_beta
        = Except.error Error.EmptyInput := by
    intro d2
    rw [hN2]
    exact specConstruct_empty d2 _ _ _
  obtain ⟨h1, h2, _, h4, h5, h6⟩ := build_construct_fails (specLib load tmp io_ok) os
    (parseArgs argv) fs (fun d2 => by
      rcases hemp d2 with h | h
      · exact ⟨_, h⟩
      · exact ⟨_, h⟩)
  refine ⟨h5, h1, h2, h4, ?_⟩
  intro d2 nb hl
  rcases hemp d2 with h | h
  · exact Or.inr (h6 d2 nb _ hl hmax h).1
  · exact Or.inl (h6 d2 nb _ hl hmax h).1

/-- Witness for C2: the vector count `0`. -/
theorem C2_empty_input_abort_witness :
    (main sampleLib sampleOS zeroArgv emptyFS).outcome ≠ Outcome.returned 0 ∧
    (∀ p, Effect.write_index p ∉ (main sampleLib sampleOS zeroArgv emptyFS).trace) ∧
    (main sampleLib sampleOS zeroArgv emptyFS).outcome = Outcome.aborted Error.EmptyInput :=
  have h := C2_empty_input_abort sampleLoad sampleTmp (fun _ => true) sampleOS zeroArgv
    emptyFS (by decide) (by decide)
  ⟨h.1, h.2.2.1, by decide⟩

theorem index_path_ne_time_file_path (output_path dataset dataset' : Str)
    (M M_beta gamma M' M_beta' gamma' : Int) :
    index_path output_path dataset M M_beta gamma ≠ time_file_path dataset' M' M_beta' gamma' := by
  intro h
  have h2 := congrArg List.reverse h
  have e1 : ".json".toList.reverse = ['n', 'o', 's', 'j', '.'] := rfl
  have e2 : ".time".toList.reverse = ['e', 'm', 'i', 't', '.'] := rfl
  simp only [index_path, time_file_path, List.reverse_append, e1, e2, List.cons_append] at h2
  exact absurd (List.cons.inj h2).1 (by decide)

/-- Against the library of the specification, with accepted parameters and a
file of at least `N` vectors, the run is decided by the serializer and the
stream alone. -/
theorem build_spec_accepts (load : Str → Option (Nat × Nat)) (tmp : Str → Str)
    (io_ok : Str → Bool) (os : OS) (a : Args) (fs : FS) (d2 nb : Nat)
    (hl : load a.filename = some (d2, nb)) (hnb : a.N ≤ nb) (hN : 0 < a.N)
    (hmax : a.N ≤ max_size) (hM : 0 < a.M) (hMb : 0 ≤ a.M_beta) (hg : 1 ≤ a.gamma) :
    build (specLib load tmp io_ok) os a fs =
      if io_ok (index_path a.output_path a.dataset a.M a.M_beta a.gamma) = true then
        if os.can_open (time_file_path a.dataset a.M a.M_beta a.gamma) = true then
          { trace := [Effect.printParams a.M a.M_beta a.N a.gamma,
              Effect.fvecs_read a.filename,
              Effect.construct d2 a.M a.gamma (List.replicate a.N 0) a.M_beta, Effect.add a.N,
              Effect.printBuildTime,
              Effect.write_index (index_path a.output_path a.dataset a.M a.M_beta a.gamma),
              Effect.system ("mkdir -p ".toList ++
                time_dir_of (time_file_path a.dataset a.M a.M_beta a.gamma)),
              Effect.open_time_file (time_file_path a.dataset a.M a.M_beta a.gamma),
              Effect.write_time (time_file_path a.dataset a.M a.M_beta a.gamma),
              Effect.printSaved (time_file_path a.dataset a.M a.M_beta a.gamma),
              Effect.newline],
            outcome := Outcome.returned 0,
            fs := (specWriteIndex tmp io_ok
                (builtIndex d2 a)
                (index_path a.output_path a.dataset a.M a.M_beta a.gamma) fs).2.put
              (time_file_path a.dataset a.M a.M_beta a.gamma) (some File.timeRecord),
            index := some (builtIndex d2 a) }
        else
          { trace := [Effect.printParams a.M a.M_beta a.N a.gamma,
              Effect.fvecs_read a.filename,
              Effect.construct d2 a.M a.gamma (List.replicate a.N 0) a.M_beta, Effect.add a.N,
              Effect.printBuildTime,
              Effect.write_index (index_path a.output_path a.dataset a.M a.M_beta a.gamma),
              Effect.system ("mkdir -p ".toList ++
                time_dir_of (time_file_path a.dataset a.M a.M_beta a.gamma)),
              Effect.open_time_file (time_file_path a.dataset a.M a.M_beta a.gamma),
              Effect.warnTime (time_file_path a.dataset a.M a.M_beta a.gamma),
              Effect.newline],
            outcome := Outcome.returned 0,
            fs := (specWriteIndex tmp io_ok
                (builtIndex d2 a)
                (index_path a.output_path a.dataset a.M a.M_beta a.gamma) fs).2,
            index := some (builtIndex d2 a) }
      else
        { trace := [Effect.printParams a.M a.M_beta a.N a.gamma,
            Effect.fvecs_read a.filename,
            Effect.construct d2 a.M a.gamma (List.replicate a.N 0) a.M_beta, Effect.add a.N,
            Effect.printBuildTime,
            Effect.write_index (index_path a.output_path a.dataset a.M a.M_beta a.gamma)],
          outcome := Outcome.aborted Error.IOFailure,
          fs := (specWriteIndex tmp io_ok
              (builtIndex d2 a)
              (index_path a.output_path a.dataset a.M a.M_beta a.gamma) fs).2,
          index := some (builtIndex d2 a) } := by
  have hparams : ¬ (a.M ≤ 0 ∨ a.M_beta < 0 ∨ a.gamma < 1) := by omega
  have hN0 : a.N ≠ 0 := by omega
  have hnlt : ¬ nb < a.N := by omega
  have hbig : ¬ max_size < a.N := by omega
  cases hio : io_ok (index_path a.output_path a.dataset a.M a.M_beta a.gamma) <;>
  cases ho : os.can_open (time_file_path a.dataset a.M a.M_beta a.gamma) <;>
  simp [build, specLib, hl, specConstruct, specAdd, specWriteIndex, mkMeta, hparams, hN0, hnlt,
    hbig, hio, ho, builtIndex]

/-- When the file holds fewer than `N` vectors and the parameters are
accepted, line 54 still asks for `N` vectors: the call is issued and reads
past the buffer. -/
theorem build_spec_overread (load : Str → Option (Nat × Nat)) (tmp : Str → Str)
    (io_ok : Str → Bool) (os : OS) (a : Args) (fs : FS) (d2 nb : Nat)
    (hl : load a.filename = some (d2, nb)) (hnb : nb < a.N) (hmax : a.N ≤ max_size)
    (hM : 0 < a.M) (hMb : 0 ≤ a.M_beta) (hg : 1 ≤ a.gamma) :
    (build (specLib load tmp io_ok) os a fs).outcome = Outcome.undefined ∧
    (build (specLib load tmp io_ok) os a fs).trace.getLast? = some (Effect.add a.N) := by
  have hparams : ¬ (a.M ≤ 0 ∨ a.M_beta < 0 ∨ a.gamma < 1) := by omega
  have hN0 : a.N ≠ 0 := by omega
  have hbig : ¬ max_size < a.N := by omega
  simp [build, specLib, hl, specConstruct, mkMeta, hparams, hN0, hnb, hbig]

/-- C3 (as stated, refuted): the sample file holds `nb = 10` vectors and the
command line asks for `N = 5`; the run does not fail with
`DimensionMismatch`, it adds 5 vectors and returns exit status 0. -/
theorem C3_counterexample :
    sampleLib.fvecs_read (sampleArgv.getD 3 []) = some (4, 10) ∧
    strtoul (sampleArgv.getD 1 []) = 5 ∧
    (main sampleLib sampleOS sampleArgv emptyFS).outcome = Outcome.returned 0 ∧
    Effect.add 5 ∈ (main sampleLib sampleOS sampleArgv emptyFS).trace ∧
    ((main sampleLib sampleOS sampleArgv emptyFS).index.map IndexACORNFlat.ntotal) = some 5 := by
  decide

/-- The driver never looks at the number of vectors of the file: with at
least `N` of them the run is the run for a file of exactly `N`. -/
theorem build_surplus (lib : Lib) (os : OS) (a : Args) (fs : FS) (d2 nb : Nat)
    (hl : lib.fvecs_read a.filename = some (d2, nb)) (hnb : a.N ≤ nb) :
    build lib os a fs
      = build { lib with fvecs_read := fun _ => some (d2, a.N) } os a fs := by
  simp [build, hl, Nat.not_lt.2 hnb]

/-- Against the library of the specification no run ends in
`DimensionMismatch`: the count handed to `add` is the number of labels. -/
theorem build_spec_never_mismatch (load : Str → Option (Nat × Nat)) (tmp : Str → Str)
    (io_ok : Str → Bool) (os : OS) (a : Args) (fs : FS) :
    (build (specLib load tmp io_ok) os a fs).outcome
      ≠ Outcome.aborted Error.DimensionMismatch := by
  rcases build_cases (specLib load tmp io_ok) os a fs with
    ⟨hnone, hb⟩ | ⟨d2, nb, hl2, hbig, hb⟩ | ⟨d2, nb, e, hl2, hN2, hc2, hb⟩ |
    ⟨d2, nb, i0, hl2, hN2, hc2, hlt, hb⟩ | ⟨d2, nb, i0, e, hl2, hN2, hc2, hle, hadd, hb⟩ |
    ⟨d2, nb, i0, i1, e, f1, hl2, hN2, hc2, hle, hadd, hw, hb⟩ |
    ⟨d2, nb, i0, i1, f1, hl2, hN2, hc2, hle, hadd, hw, ho, hb⟩ |
    ⟨d2, nb, i0, i1, f1, hl2, hN2, hc2, hle, hadd, hw, ho, hb⟩
  · rw [hb]; simp
  · rw [hb]; simp
  · rw [hb]
    simp only [specLib, specConstruct] at hc2
    split at hc2
    · cases hc2; simp
    · split at hc2
      · cases hc2; simp
      · cases hc2
  · rw [hb]; simp
  · exfalso
    simp only [specLib, specConstruct] at hc2
    split at hc2
    · cases hc2
    · split at hc2
      · cases hc2
      · simp only [Except.ok.injEq] at hc2
        subst hc2
        simp [specLib, specAdd] at hadd
  · rw [hb]
    simp only [specLib, specWriteIndex] at hw
    split at hw
    · cases hw
    · simp only [Prod.mk.injEq, Except.error.injEq] at hw
      rw [← hw.1]
      simp
  · rw [hb]; simp
  · rw [hb]; simp

/-- C3 (amended): when the file holds at least `N` vectors the driver does not
compare the two counts: against any library the run is the run for a file of
exactly `N` vectors.  Against the library of the specification the run never
ends in `DimensionMismatch`; with accepted parameters and `0 < N <= max_size`
the call `add(N, xb)` is issued, the index then holds exactly `N` vectors
with `N` labels, and the run returns 0 when the serializer succeeds. -/
theorem C3_surplus_vectors_ignored (lib : Lib) (tmp : Str → Str)
    (io_ok : Str → Bool) (os : OS) (argv : List Str) (fs : FS) (d2 nb : Nat)
    (h8 : argv.length = 8)
    (hl : lib.fvecs_read (argv.getD 3 []) = some (d2, nb))
    (hnb : strtoul (argv.getD 1 []) ≤ nb) :
    main lib os argv fs
      = main { lib with fvecs_read := fun _ => some (d2, strtoul (argv.getD 1 [])) }
          os argv fs ∧
    (main (specLib lib.fvecs_read tmp io_ok) os argv fs).outcome
      ≠ Outcome.aborted Error.DimensionMismatch ∧
    (0 < strtoul (argv.getD 1 []) → strtoul (argv.getD 1 []) ≤ max_size →
      0 < atoi (argv.getD 4 []) → 0 ≤ atoi (argv.getD 5 []) → 1 ≤ atoi (argv.getD 2 []) →
      Effect.add (strtoul (argv.getD 1 []))
        ∈ (main (specLib lib.fvecs_read tmp io_ok) os argv fs).trace ∧
      (∃ idx, (main (specLib lib.fvecs_read tmp io_ok) os argv fs).index = some idx ∧
        idx.ntotal = strtoul (argv.getD 1 []) ∧
        idx.labels.length = strtoul (argv.getD 1 [])) ∧
      (io_ok (index_path (argv.getD 6 []) (argv.getD 7 []) (atoi (argv.getD 4 []))
          (atoi (argv.getD 5 [])) (atoi (argv.getD 2 []))) = true →
        (main (specLib lib.fvecs_read tmp io_ok) os argv fs).outcome
          = Outcome.returned 0)) := by
  rw [main_eq_build _ os argv fs h8, main_eq_build _ os argv fs h8,
    main_eq_build _ os argv fs h8]
  refine ⟨build_surplus lib os (parseArgs argv) fs d2 nb hl hnb,
    build_spec_never_mismatch _ tmp io_ok os _ fs, ?_⟩
  intro hN hmax hM hMb hg
  rw [build_spec_accepts lib.fvecs_read tmp io_ok os (parseArgs argv) fs d2 nb hl hnb hN hmax
    hM hMb hg]
  have hP : index_path (argv.getD 6 []) (argv.getD 7 []) (atoi (argv.getD 4 []))
      (atoi (argv.getD 5 [])) (atoi (argv.getD 2 []))
      = index_path (parseArgs argv).output_path (parseArgs argv).dataset (parseArgs argv).M
          (parseArgs argv).M_beta (parseArgs argv).gamma := rfl
  have hNa : strtoul (argv.getD 1 []) = (parseArgs argv).N := rfl
  rw [hP, hNa]
  generalize parseArgs argv = a
  by_cases hio : io_ok (index_path a.output_path a.dataset a.M a.M_beta a.gamma) = true <;>
  by_cases ho : os.can_open (time_file_path a.dataset a.M a.M_beta a.gamma) = true <;>
  simp [hio, ho, builtIndex]

/-- Witness for C3 (amended): the sample file holds 10 vectors, 5 are asked for. -/
theorem C3_surplus_vectors_ignored_witness :
    main sampleLib sampleOS sampleArgv emptyFS
      = main { sampleLib with fvecs_read := fun _ => some (4, strtoul (sampleArgv.getD 1 [])) }
          sampleOS sampleArgv emptyFS ∧
    (main (specLib sampleLib.fvecs_read sampleTmp (fun _ => true)) sampleOS sampleArgv
        emptyFS).outcome ≠ Outcome.aborted Error.DimensionMismatch ∧
    Effect.add (strtoul (sampleArgv.getD 1 []))
      ∈ (main (specLib sampleLib.fvecs_read sampleTmp (fun _ => true)) sampleOS sampleArgv
          emptyFS).trace :=
  have h := C3_surplus_vectors_ignored sampleLib sampleTmp (fun _ => true) sampleOS sampleArgv
    emptyFS 4 10 (by decide) rfl (by decide)
  ⟨h.1, h.2.1, (h.2.2 (by decide) (by decide) (by decide) (by decide) (by decide)).1⟩

/-- C7: against the serializer of the specification, which writes to a
temporary path different from the final one and renames on success, a failed
write leaves the final index path holding exactly what it held before the
run (no torn file, a previous artifact intact), the torn bytes lie at the
temporary path and the run is aborted with `IOFailure` once the serializer is
called; in every run the final path ends
up holding either what it held before or the complete artifact of the built
index, the latter only when the write went through. -/
theorem C7_write_then_replace (load : Str → Option (Nat × Nat)) (tmp : Str → Str)
    (io_ok : Str → Bool) (os : OS) (argv : List Str) (fs : FS)
    (htmp : ∀ p, tmp p ≠ p) :
    (io_ok (index_path (argv.getD 6 []) (argv.getD 7 []) (atoi (argv.getD 4 []))
        (atoi (argv.getD 5 [])) (atoi (argv.getD 2 []))) = false →
      (main (specLib load tmp io_ok) os argv fs).fs
          (index_path (argv.getD 6 []) (argv.getD 7 []) (atoi (argv.getD 4 []))
            (atoi (argv.getD 5 [])) (atoi (argv.getD 2 [])))
        = fs (index_path (argv.getD 6 []) (argv.getD 7 []) (atoi (argv.getD 4 []))
            (atoi (argv.getD 5 [])) (atoi (argv.getD 2 []))) ∧
      (∀ p, Effect.write_index p ∈ (main (specLib load tmp io_ok) os argv fs).trace →
        (main (specLib load tmp io_ok) os argv fs).outcome
          = Outcome.aborted Error.IOFailure ∧
        ∃ idx, (main (specLib load tmp io_ok) os argv fs).fs
            (tmp (index_path (argv.getD 6 []) (argv.getD 7 []) (atoi (argv.getD 4 []))
              (atoi (argv.getD 5 [])) (atoi (argv.getD 2 []))))
          = some (File.torn idx))) ∧
    ((main (specLib load tmp io_ok) os argv fs).fs
          (index_path (argv.getD 6 []) (argv.getD 7 []) (atoi (argv.getD 4 []))
            (atoi (argv.getD 5 [])) (atoi (argv.getD 2 [])))
        = fs (index_path (argv.getD 6 []) (argv.getD 7 []) (atoi (argv.getD 4 []))
            (atoi (argv.getD 5 [])) (atoi (argv.getD 2 []))) ∨
      (∃ idx, (main (specLib load tmp io_ok) os argv fs).index = some idx ∧
        (main (specLib load tmp io_ok) os argv fs).fs
            (index_path (argv.getD 6 []) (argv.getD 7 []) (atoi (argv.getD 4 []))
              (atoi (argv.getD 5 [])) (atoi (argv.getD 2 [])))
          = some (File.artifact idx) ∧
        io_ok (index_path (argv.getD 6 []) (argv.getD 7 []) (atoi (argv.getD 4 []))
          (atoi (argv.getD 5 [])) (atoi (argv.getD 2 []))) = true)) := by
  by_cases h8 : argv.length = 8
  swap
  · simp [main, h8]
  rw [main_eq_build _ os argv fs h8]
  have hP : index_path (argv.getD 6 []) (argv.getD 7 []) (atoi (argv.getD 4 []))
      (atoi (argv.getD 5 [])) (atoi (argv.getD 2 []))
      = index_path (parseArgs argv).output_path (parseArgs argv).dataset (parseArgs argv).M
          (parseArgs argv).M_beta (parseArgs argv).gamma := rfl
  rw [hP]
  generalize parseArgs argv = a
  have hne := htmp (index_path a.output_path a.dataset a.M a.M_beta a.gamma)
  have hne2 := index_path_ne_time_file_path a.output_path a.dataset a.dataset a.M a.M_beta
    a.gamma a.M a.M_beta a.gamma
  rcases build_cases (specLib load tmp io_ok) os a fs with
    ⟨hnone, hb⟩ | ⟨d2, nb, hl2, hbig, hb⟩ | ⟨d2, nb, e, hl2, hN2, hc2, hb⟩ |
    ⟨d2, nb, i0, hl2, hN2, hc2, hlt, hb⟩ | ⟨d2, nb, i0, e, hl2, hN2, hc2, hle, hadd, hb⟩ |
    ⟨d2, nb, i0, i1, e, f1, hl2, hN2, hc2, hle, hadd, hw, hb⟩ |
    ⟨d2, nb, i0, i1, f1, hl2, hN2, hc2, hle, hadd, hw, ho, hb⟩ |
    ⟨d2, nb, i0, i1, f1, hl2, hN2, hc2, hle, hadd, hw, ho, hb⟩
  · rw [hb]; simp
  · rw [hb]; simp
  · rw [hb]; simp
  · rw [hb]; simp
  · rw [hb]; simp
  · rw [hb]
    simp only [specLib, specWriteIndex] at hw
    split at hw
    · simp at hw
    · simp only [Prod.mk.injEq, Except.error.injEq] at hw
      obtain ⟨he, hf⟩ := hw
      subst he hf
      simp [FS.put, Ne.symm hne]
  · rw [hb]
    simp only [specLib, specWriteIndex] at hw
    split at hw
    · rename_i hio
      simp only [Prod.mk.injEq, true_and] at hw
      subst hw
      simp [FS.put, hne2, hio]
    · simp at hw
  · rw [hb]
    simp only [specLib, specWriteIndex] at hw
    split at hw
    · rename_i hio
      simp only [Prod.mk.injEq, true_and] at hw
      subst hw
      simp [FS.put, hio]
    · simp at hw

theorem sampleTmp_ne (p : Str) : sampleTmp p ≠ p := by
  intro h
  have := congrArg List.length h
  simp [sampleTmp] at this

/-- Witness for C7: the sample run with a failing serializer. -/
theorem C7_write_then_replace_witness :
    (main failingLib sampleOS sampleArgv emptyFS).fs
        (index_path (sampleArgv.getD 6 []) (sampleArgv.getD 7 []) (atoi (sampleArgv.getD 4 []))
          (atoi (sampleArgv.getD 5 [])) (atoi (sampleArgv.getD 2 [])))
      = emptyFS (index_path (sampleArgv.getD 6 []) (sampleArgv.getD 7 [])
          (atoi (sampleArgv.getD 4 [])) (atoi (sampleArgv.getD 5 []))
          (atoi (sampleArgv.getD 2 []))) ∧
    (main failingLib sampleOS sampleArgv emptyFS).outcome = Outcome.aborted Error.IOFailure :=
  have h := (C7_write_then_replace sampleLoad sampleTmp (fun _ => false) sampleOS sampleArgv
    emptyFS sampleTmp_ne).1 rfl
  ⟨h.1, (h.2 (index_path (sampleArgv.getD 6 []) (sampleArgv.getD 7 [])
      (atoi (sampleArgv.getD 4 [])) (atoi (sampleArgv.getD 5 [])) (atoi (sampleArgv.getD 2 [])))
    (by decide)).1⟩

end ACORN
